import Mathlib

/-!
# command-server: response transport, fetch command and dispatcher

A shallow embedding of `main.go`, `commands/registry.go` and `commands/fetch.go`.

* A Go `error` is an `Option String`: `none` is `nil`, `some m` is an error whose
  `Error()` text is `m`.
* The HTTP connection (`http.ResponseWriter`) is a record of the calls made on it, in
  order.  Nothing is ever removed from that record.
* Library calls whose result comes from outside the repository (`json.Unmarshal`,
  `http.NewRequest`, `client.Do`, the inbound request decoder, `filepath.Ext`,
  `filepath.Base`) are fields of `Env`; every theorem quantifies over them.
* The upstream body (`resp.Body`) is the finite script of results its `Read` calls
  return: reads with a nil error, then one read with a non-nil error (`io.EOF` or other).
-/

namespace CommandServer

/-! ## Data model -/

/-- Byte slices and Go strings built from them. -/
abbrev Bytes := List UInt8

/-- Go `error` values: `none` is `nil`. -/
abbrev GoError := Option String

/-- Values produced by `encoding/json` when decoding into `interface{}`.
Numbers are not inspected anywhere in the program; integers stand for them. -/
inductive Json where
  | null
  | bool (b : Bool)
  | num (n : Int)
  | str (s : String)
  | arr (xs : List Json)
  | obj (kvs : List (String × Json))

/-- Go `map[string][]string` (also `http.Header`). -/
abbrev Header := List (String × List String)

/-- Go `map[string]interface{}` as decoded from JSON. -/
abbrev Args := List (String × Json)

/-- The dynamic values (`interface{}`) handed to a response writer.
`unsupported e` is any value `json.Marshal` rejects, with the error it reports. -/
inductive GoValue where
  | json (v : Json)
  | text (s : Bytes)
  | startInfo (statuscode : Int) (headers : Header)
  | errorMap (msg : String)
  | unsupported (err : String)

/-- The error of `json.Marshal v` (`none` when the value marshals). -/
def marshalErr : GoValue → GoError
  | .unsupported e => some e
  | _ => none

/-- One call made on the underlying `http.ResponseWriter`. -/
inductive ConnOp where
  | headerAdd (k v : String)
  | headerSet (k v : String)
  | writeHeader (code : Int)
  | envelope (statuscode : Int) (headers : Header) (body : GoValue)
  | event (eventType : String) (data : GoValue)
  | flush
  | httpError (msg : String) (code : Int)

/-- The underlying connection: whether it implements `http.Flusher`, the error its
`Write` returns (`none` when writes succeed), and the calls made on it so far. -/
structure Conn where
  canFlush : Bool
  writeErr : GoError
  ops : List ConnOp

/-- Append calls to the connection record. -/
def Conn.push (c : Conn) (new : List ConnOp) : Conn :=
  { c with ops := c.ops ++ new }

/-! ## commands/registry.go -/

/-- The `ResponseWriter` interface, over the state `W` of an implementation. -/
structure ResponseWriter (W : Type) where
  WriteJSON : Int → Header → GoValue → W → GoError × W
  Stream : String → GoValue → W → GoError × W
  End : W → GoError × W

/-- The `Command` interface: `Execute(args, writer) error` for any writer. -/
structure Command where
  Execute : {W : Type} → ResponseWriter W → Args → W → GoError × W

/-- The process-wide `registry` map (a missing key reads as `nil`). -/
abbrev Registry := String → Option Command

/-- Function `RegisterCommand`: `registry[name] = cmd`. -/
def RegisterCommand (registry : Registry) (name : String) (cmd : Command) : Registry :=
  fun n => if n = name then some cmd else registry n

/-- Function `GetCommand`: `registry[name]`. -/
def GetCommand (registry : Registry) (name : String) : Option Command :=
  registry name

/-! ## main.go: the HTTP response writer -/

/-- The struct `httpResponseWriter`; `flusher` is true when the field is non-nil. -/
structure httpResponseWriter where
  w : Conn
  flusher : Bool
  started : Bool

/-- Function `newHTTPResponseWriter`. -/
def newHTTPResponseWriter (w : Conn) : httpResponseWriter :=
  { w := w, flusher := w.canFlush, started := false }

/-- The `Header().Add` calls of the nested loop in `WriteJSON`. -/
def headerAdds (headers : Header) : List ConnOp :=
  headers.flatMap fun kv => kv.2.map fun v => ConnOp.headerAdd kv.1 v

/-- Method `WriteJSON`. -/
def httpResponseWriter.WriteJSON (statusCode : Int) (headers : Header) (body : GoValue)
    (rw : httpResponseWriter) : GoError × httpResponseWriter :=
  if rw.started then
    (some "response already started", rw)
  else
    let w1 := rw.w.push
      (headerAdds headers ++
        [ConnOp.headerSet "Content-Type" "application/json", ConnOp.writeHeader statusCode])
    match marshalErr body with
    | some e => (some e, { rw with w := w1, started := true })
    | none =>
      (w1.writeErr,
        { rw with w := w1.push [ConnOp.envelope statusCode headers body], started := true })

/-- The first block of `Stream`: open the event stream when nothing was started. -/
def httpResponseWriter.openStream (rw : httpResponseWriter) : httpResponseWriter :=
  if rw.started then rw
  else
    { rw with
      started := true
      w := rw.w.push
        [ConnOp.headerSet "Content-Type" "text/event-stream",
         ConnOp.headerSet "Cache-Control" "no-cache",
         ConnOp.headerSet "Connection" "keep-alive",
         ConnOp.writeHeader 200] }

/-- Method `Stream`. -/
def httpResponseWriter.Stream (eventType : String) (data : GoValue)
    (rw : httpResponseWriter) : GoError × httpResponseWriter :=
  let rw1 := rw.openStream
  if rw1.flusher then
    match marshalErr data with
    | some e => (some e, rw1)
    | none => (none, { rw1 with w := rw1.w.push [ConnOp.event eventType data, ConnOp.flush] })
  else
    (some "streaming not supported", rw1)

/-- Method `End`; the frame it prints is the event `end` with the payload `{}`. -/
def httpResponseWriter.End (rw : httpResponseWriter) : GoError × httpResponseWriter :=
  if rw.started then
    if rw.flusher then
      (none, { rw with w := rw.w.push [ConnOp.event "end" (GoValue.json (Json.obj [])), ConnOp.flush] })
    else
      (none, rw)
  else
    (some "response not started", rw)

/-- The `*httpResponseWriter` implementation of the `ResponseWriter` interface. -/
def httpRW : ResponseWriter httpResponseWriter where
  WriteJSON := httpResponseWriter.WriteJSON
  Stream := httpResponseWriter.Stream
  End := httpResponseWriter.End

/-- One call on a `ResponseWriter`, with its arguments. -/
inductive Call where
  | WriteJSON (statusCode : Int) (headers : Header) (body : GoValue)
  | Stream (eventType : String) (data : GoValue)
  | End

/-- A writer that forwards every call to `rw` and logs it. -/
def recording {W : Type} (rw : ResponseWriter W) : ResponseWriter (W × List Call) where
  WriteJSON := fun sc h b s =>
    ((rw.WriteJSON sc h b s.1).1, ((rw.WriteJSON sc h b s.1).2, s.2 ++ [Call.WriteJSON sc h b]))
  Stream := fun t d s =>
    ((rw.Stream t d s.1).1, ((rw.Stream t d s.1).2, s.2 ++ [Call.Stream t d]))
  End := fun s => ((rw.End s.1).1, ((rw.End s.1).2, s.2 ++ [Call.End]))

/-- Perform one call on the HTTP response writer (its error result is dropped). -/
def Call.run (c : Call) (rw : httpResponseWriter) : httpResponseWriter :=
  match c with
  | .WriteJSON sc h b => (rw.WriteJSON sc h b).2
  | .Stream t d => (rw.Stream t d).2
  | .End => rw.End.2

/-- Perform a sequence of calls on one writer instance, in order. -/
def runCalls (cs : List Call) (rw : httpResponseWriter) : httpResponseWriter :=
  cs.foldl (fun s c => c.run s) rw

/-! ## commands/fetch.go -/

/-- The error of a `Read` that ends the body: `io.EOF` or another error. -/
inductive ReadErr where
  | eof
  | other (msg : String)

/-- The upstream body `resp.Body` as the results its `Read` calls return: `reads` are
the byte counts and contents returned with a nil error, in order; the final read
returns `lastData` together with the non-nil error `lastErr`. -/
structure BodyReader where
  reads : List Bytes
  lastData : Bytes
  lastErr : ReadErr

/-- The parts of `*http.Response` the command uses. -/
structure Response where
  StatusCode : Int
  Header : Header
  Body : BodyReader

/-- The outbound `*http.Request`: method, URL, the value whose JSON encoding is the
body (if any), and the headers set on it. -/
structure OutReq where
  method : String
  url : String
  body : Option Json
  headers : List (String × String)

/-- The calls the fetch command makes on `net/http`. -/
inductive NetOp where
  | newRequest (method url : String) (body : Option Json)
  | send (req : OutReq)

/-- The struct `Request`: the decoded inbound envelope. -/
structure Request where
  Cmd : String
  Args : CommandServer.Args

/-- Results of library calls that depend on the world outside the repository. -/
structure Env where
  unmarshal : Bytes → Except String Json
  newRequest : String → String → Option Json → GoError
  roundTrip : OutReq → Except String Response
  decodeRequest : Bytes → Except String Request
  Ext : String → String
  Base : String → String

/-- The size of the read buffer, `make([]byte, 1024)`. -/
def bufferSize : Nat := 1024

/-- Method `Header.Get`: the first value stored under the key, or the empty string. -/
def Header.Get (h : Header) (key : String) : String :=
  match h.lookup key with
  | some (v :: _) => v
  | _ => ""

/-- Function `io.ReadAll` on the body script: everything read, unless a read failed. -/
def ReadAll (b : BodyReader) : Except String Bytes :=
  match b.lastErr with
  | .eof => .ok (b.reads.flatten ++ b.lastData)
  | .other msg => .error msg

/-- The payload the loop sends for one chunk: the decoded value when the chunk alone
decodes, else the chunk as a string. -/
def chunkPayload (env : Env) (chunk : Bytes) : GoValue :=
  match env.unmarshal chunk with
  | .ok jsonData => GoValue.json jsonData
  | .error _ => GoValue.text chunk

/-- The `if n > 0` block of the read loop; the result of `Stream` is not looked at. -/
def emitChunk {W : Type} (env : Env) (rw : ResponseWriter W) (chunk : Bytes) (writer : W) : W :=
  if chunk.length > 0 then (rw.Stream "data" (chunkPayload env chunk) writer).2 else writer

/-- The read loop of `FetchCommand.handleStreamingResponse`, one iteration per `Read`. -/
def readLoop {W : Type} (env : Env) (rw : ResponseWriter W) (lastData : Bytes)
    (lastErr : ReadErr) : List Bytes → W → W
  | [], writer =>
    let w1 := emitChunk env rw lastData writer
    match lastErr with
    | .eof => w1
    | .other msg => (rw.Stream "error" (GoValue.errorMap msg) w1).2
  | chunk :: rest, writer => readLoop env rw lastData lastErr rest (emitChunk env rw chunk writer)

/-- Method `FetchCommand.handleStreamingResponse`. -/
def FetchCommand.handleStreamingResponse {W : Type} (env : Env) (rw : ResponseWriter W) (resp : Response)
    (writer : W) : GoError × W :=
  match rw.Stream "start" (GoValue.startInfo resp.StatusCode resp.Header) writer with
  | (some err, w1) => (some err, w1)
  | (none, w1) =>
    rw.End (readLoop env rw resp.Body.lastData resp.Body.lastErr resp.Body.reads w1)

/-- Method `FetchCommand.handleRegularResponse`. -/
def FetchCommand.handleRegularResponse {W : Type} (env : Env) (rw : ResponseWriter W) (resp : Response)
    (writer : W) : GoError × W :=
  match ReadAll resp.Body with
  | .error err => (some ("failed to read response body: " ++ err), writer)
  | .ok respBody =>
    let headers : Header := resp.Header
    if resp.Header.Get "Content-Type" = "application/json" then
      match env.unmarshal respBody with
      | .error err => (some ("failed to parse JSON response: " ++ err), writer)
      | .ok jsonBody => rw.WriteJSON resp.StatusCode headers (GoValue.json jsonBody) writer
    else
      rw.WriteJSON resp.StatusCode headers (GoValue.text respBody) writer

/-- The `req.Header.Set` calls of the header loop: string-valued entries only. -/
def stringHeaders (args : Args) : List (String × String) :=
  match args.lookup "headers" with
  | some (.obj headers) =>
    headers.filterMap fun kv =>
      match kv.2 with
      | .str strValue => some (kv.1, strValue)
      | _ => none
  | _ => []

/-- The value of `stream, _ := args["stream"].(bool)`. -/
def streamFlag (args : Args) : Bool :=
  match args.lookup "stream" with
  | some (.bool b) => b
  | _ => false

/-- What one run of `Execute` leaves behind: the returned error, the writer, and the
calls made on `net/http`. -/
structure ExecResult (W : Type) where
  err : GoError
  writer : W
  net : List NetOp

/-- Method `FetchCommand.Execute`. -/
def FetchCommand.Execute {W : Type} (env : Env) (rw : ResponseWriter W) (args : Args)
    (writer : W) : ExecResult W :=
  match args.lookup "method" with
  | some (.str method) =>
    match args.lookup "url" with
    | some (.str url) =>
      let stream := streamFlag args
      let body : Except String (Option Json) :=
        match args.lookup "body" with
        | some bodyData =>
          match marshalErr (GoValue.json bodyData) with
          | some err => .error err
          | none => .ok (some bodyData)
        | none => .ok none
      match body with
      | .error err => ⟨some ("failed to marshal body: " ++ err), writer, []⟩
      | .ok body =>
        match env.newRequest method url body with
        | some err =>
          ⟨some ("failed to create request: " ++ err), writer, [NetOp.newRequest method url body]⟩
        | none =>
          let req : OutReq := ⟨method, url, body, stringHeaders args⟩
          match env.roundTrip req with
          | .error err =>
            ⟨some ("request failed: " ++ err), writer,
              [NetOp.newRequest method url body, NetOp.send req]⟩
          | .ok resp =>
            let r :=
              if stream then FetchCommand.handleStreamingResponse env rw resp writer
              else FetchCommand.handleRegularResponse env rw resp writer
            ⟨r.1, r.2, [NetOp.newRequest method url body, NetOp.send req]⟩
    | _ => ⟨some "url must be a string", writer, []⟩
  | _ => ⟨some "method must be a string", writer, []⟩

/-- The fetch command as a `Command`. -/
def fetchCommand (env : Env) : Command where
  Execute := fun rw args writer =>
    ((FetchCommand.Execute env rw args writer).err, (FetchCommand.Execute env rw args writer).writer)

/-- The registry after `init()` of fetch.go: `RegisterCommand("fetch", &FetchCommand{})`. -/
def initRegistry (env : Env) : Registry :=
  RegisterCommand (fun _ => none) "fetch" (fetchCommand env)

/-! ## main.go: the dispatcher -/

/-- The inbound `*http.Request`: its method and body. -/
structure HttpRequest where
  Method : String
  Body : Bytes

/-- Function `setCORSHeaders`. -/
def setCORSHeaders (w : Conn) (corsValue : String) : Conn :=
  w.push
    [ConnOp.headerSet "Access-Control-Allow-Origin" corsValue,
     ConnOp.headerSet "Access-Control-Allow-Methods" "POST, OPTIONS",
     ConnOp.headerSet "Access-Control-Allow-Headers"
       "Content-Type, Accept, sentry-trace, traceparent, baggage",
     ConnOp.headerSet "Access-Control-Max-Age" "86400"]

/-- Function `sendError`; its envelope always marshals, and the encoder result is dropped. -/
def sendError (cors : String) (w : Conn) (statusCode : Int) (message : String) : Conn :=
  let w1 := if cors ≠ "" then setCORSHeaders w cors else w
  w1.push
    [ConnOp.headerSet "Content-Type" "application/json",
     ConnOp.writeHeader statusCode,
     ConnOp.envelope statusCode [("Content-Type", ["application/json"])]
       (GoValue.errorMap message)]

/-- Function `loadCommands` on the file names found in `./commands`: the `commands` map
of main.go, filled from the registry. -/
def loadCommands (env : Env) (registry : Registry) (files : List String) :
    String → Option Command :=
  files.foldl
    (fun commands name =>
      if env.Ext name = ".go" then
        let cmdName := env.Base (name.dropRight 3)
        match GetCommand registry cmdName with
        | some cmd => fun n => if n = cmdName then some cmd else commands n
        | none => commands
      else commands)
    (fun _ => none)

/-- What `handleRequest` leaves behind: the connection, the response writer it
constructed (if it got that far), and the result of the handler (if it was invoked). -/
structure Outcome where
  conn : Conn
  writer : Option httpResponseWriter
  handlerErr : Option GoError

/-- The last step of `handleRequest`: report a handler failure unless output started. -/
def afterExecute (cors : String) (r : GoError × httpResponseWriter) : Conn :=
  match r.1 with
  | some err => if r.2.started then r.2.w else sendError cors r.2.w 500 err
  | none => r.2.w

/-- Function `handleRequest`. -/
def handleRequest (env : Env) (cors : String) (commands : String → Option Command)
    (w : Conn) (r : HttpRequest) : Outcome :=
  let w0 := if cors ≠ "" then setCORSHeaders w cors else w
  if cors ≠ "" ∧ r.Method = "OPTIONS" then
    ⟨w0.push [ConnOp.writeHeader 200], none, none⟩
  else if r.Method ≠ "POST" then
    ⟨w0.push [ConnOp.httpError "Method not allowed" 405], none, none⟩
  else
    match env.decodeRequest r.Body with
    | .error _ => ⟨sendError cors w0 400 "Invalid request format", none, none⟩
    | .ok req =>
      match commands req.Cmd with
      | none => ⟨sendError cors w0 404 "Command not found", none, none⟩
      | some cmd =>
        let responseWriter := newHTTPResponseWriter w0
        let res := cmd.Execute httpRW req.Args responseWriter
        ⟨afterExecute cors res, some responseWriter, some res.1⟩

/-! ## Observations on the connection record -/

/-- The events written to the connection, as (type, payload) pairs in order. -/
def events : List ConnOp → List (String × GoValue)
  | [] => []
  | ConnOp.event t d :: rest => (t, d) :: events rest
  | _ :: rest => events rest

/-- The buffered envelopes written to the connection, in order. -/
def envelopes : List ConnOp → List (Int × Header × GoValue)
  | [] => []
  | ConnOp.envelope sc h b :: rest => (sc, h, b) :: envelopes rest
  | _ :: rest => envelopes rest

/-- The status codes passed to `WriteHeader`, in order. -/
def statusLines : List ConnOp → List Int
  | [] => []
  | ConnOp.writeHeader c :: rest => c :: statusLines rest
  | _ :: rest => statusLines rest

/-- The connection calls one loop iteration makes for a chunk on a started, flushing
writer. -/
def chunkOps (env : Env) (chunk : Bytes) : List ConnOp :=
  if chunk.length > 0 then [ConnOp.event "data" (chunkPayload env chunk), ConnOp.flush] else []

/-- The connection calls made for the error that ends the body. -/
def errOps : ReadErr → List ConnOp
  | .eof => []
  | .other msg => [ConnOp.event "error" (GoValue.errorMap msg), ConnOp.flush]

/-- The connection calls of the whole read loop on a started, flushing writer. -/
def loopOps (env : Env) (lastData : Bytes) (lastErr : ReadErr) (reads : List Bytes) :
    List ConnOp :=
  reads.flatMap (chunkOps env) ++ (chunkOps env lastData ++ errOps lastErr)

/-- The connection calls of a streaming run after the stream was opened. -/
def streamOps (env : Env) (resp : Response) : List ConnOp :=
  [ConnOp.event "start" (GoValue.startInfo resp.StatusCode resp.Header), ConnOp.flush] ++
    (loopOps env resp.Body.lastData resp.Body.lastErr resp.Body.reads ++
      [ConnOp.event "end" (GoValue.json (Json.obj [])), ConnOp.flush])

/-- All reads of a body, in order, the final one included. -/
def BodyReader.allReads (b : BodyReader) : List Bytes :=
  b.reads ++ [b.lastData]

/-- The `data` events of a list of reads: one per read that returned a byte. -/
def dataEvents (env : Env) (reads : List Bytes) : List (String × GoValue) :=
  (reads.filter fun c => decide (c.length > 0)).map fun c => ("data", chunkPayload env c)

/-- The `error` event of the error that ends the body, if it is not `io.EOF`. -/
def errEvents : ReadErr → List (String × GoValue)
  | .eof => []
  | .other msg => [("error", GoValue.errorMap msg)]

/-- Whether a logged call is a `WriteJSON` call. -/
def Call.isWriteJSON : Call → Bool
  | .WriteJSON _ _ _ => true
  | _ => false

/-- The writer calls of one loop iteration. -/
def chunkCalls (env : Env) (chunk : Bytes) : List Call :=
  if chunk.length > 0 then [Call.Stream "data" (chunkPayload env chunk)] else []

/-- The writer calls made for the error that ends the body. -/
def errCalls : ReadErr → List Call
  | .eof => []
  | .other msg => [Call.Stream "error" (GoValue.errorMap msg)]

/-- The writer calls of the whole read loop. -/
def loopCalls (env : Env) (lastData : Bytes) (lastErr : ReadErr) (reads : List Bytes) :
    List Call :=
  reads.flatMap (chunkCalls env) ++ (chunkCalls env lastData ++ errCalls lastErr)

/-- The writer calls of a streaming run: the start event, then (when it was accepted) the
loop calls and `End`. -/
def streamingCalls {W : Type} (env : Env) (rw : ResponseWriter W) (resp : Response) (w : W) :
    List Call :=
  Call.Stream "start" (GoValue.startInfo resp.StatusCode resp.Header) ::
    match (rw.Stream "start" (GoValue.startInfo resp.StatusCode resp.Header) w).1 with
    | some _ => []
    | none => loopCalls env resp.Body.lastData resp.Body.lastErr resp.Body.reads ++ [Call.End]

/-- The writer calls of a buffered run: none when reading or decoding fails, else the one
`WriteJSON` call. -/
def regularCalls (env : Env) (resp : Response) : List Call :=
  match ReadAll resp.Body with
  | .error _ => []
  | .ok respBody =>
    if resp.Header.Get "Content-Type" = "application/json" then
      match env.unmarshal respBody with
      | .error _ => []
      | .ok jsonBody => [Call.WriteJSON resp.StatusCode resp.Header (GoValue.json jsonBody)]
    else
      [Call.WriteJSON resp.StatusCode resp.Header (GoValue.text respBody)]

/-- Whether a connection call belongs to an event frame (the frame or its flush). -/
def ConnOp.isFrame : ConnOp → Bool
  | .event _ _ => true
  | .flush => true
  | _ => false

/-- The connection calls with which `Stream` opens the event stream. -/
def openOps : List ConnOp :=
  [ConnOp.headerSet "Content-Type" "text/event-stream",
   ConnOp.headerSet "Cache-Control" "no-cache",
   ConnOp.headerSet "Connection" "keep-alive",
   ConnOp.writeHeader 200]

/-- How a `data` event relates to the read it was made from: the payload is the decoded
value when the bytes of that read alone decode, and those bytes as a string otherwise;
the read fits the buffer. -/
def DataEventOf (env : Env) (chunk : Bytes) (ev : String × GoValue) : Prop :=
  ev.1 = "data" ∧ chunk.length ≤ bufferSize ∧
    ((∃ v, env.unmarshal chunk = .ok v ∧ ev.2 = GoValue.json v) ∨
      ((∀ v, env.unmarshal chunk ≠ .ok v) ∧ ev.2 = GoValue.text chunk))

/-- Whether a call is one of the two that set `started`: `WriteJSON` or `Stream`. -/
def Call.startsOutput : Call → Bool
  | .WriteJSON _ _ _ => true
  | .Stream _ _ => true
  | .End => false

/-! ## Sample inputs -/

/-- The `commands` map holding the fetch command under its name only. -/
def fetchOnly (env : Env) : String → Option Command :=
  fun n => if n = "fetch" then some (fetchCommand env) else none

/-- An inbound POST request (the sample environment decodes every body to the
streaming fetch envelope). -/
def postRequest : HttpRequest := ⟨"POST", []⟩

/-- A sample environment: no chunk decodes as JSON except the exact bytes of the
text `{"a":1}`, every request can be built, and every outbound call is answered
by `resp`. -/
def sampleEnv (resp : Response) : Env where
  unmarshal := fun b =>
    if b = [123, 34, 97, 34, 58, 49, 125] then .ok (Json.obj [("a", Json.num 1)])
    else .error "invalid character"
  newRequest := fun _ _ _ => none
  roundTrip := fun _ => .ok resp
  decodeRequest := fun _ => .ok ⟨"fetch", [("method", Json.str "GET"), ("url", Json.str "http://up"), ("stream", Json.bool true)]⟩
  Ext := fun _ => ".go"
  Base := fun n => n

/-- A fresh connection that supports flushing. -/
def flushingConn : Conn := ⟨true, none, []⟩

/-- A fresh connection that does not support flushing. -/
def plainConn : Conn := ⟨false, none, []⟩

/-- Arguments of a streaming fetch. -/
def streamArgs : Args :=
  [("method", Json.str "GET"), ("url", Json.str "http://up"), ("stream", Json.bool true)]

/-- Arguments of a buffered fetch. -/
def bufferedArgs : Args :=
  [("method", Json.str "GET"), ("url", Json.str "http://up")]

/-- An upstream response whose body delivers two chunks (`hi`, then nothing, then `yo`)
and then fails with the error `reset`. -/
def brokenResp : Response :=
  ⟨200, [("Content-Type", ["text/plain"])], ⟨[[104, 105], [], [121, 111]], [], ReadErr.other "reset"⟩⟩

/-- An upstream response whose body is the text `{"a":1}` followed by `io.EOF`. -/
def jsonResp : Response :=
  ⟨200, [("Content-Type", ["application/json"])], ⟨[[123, 34, 97, 34, 58, 49, 125]], [], ReadErr.eof⟩⟩

/-- An upstream response whose body is the text `hello` followed by `io.EOF`. -/
def helloResp : Response :=
  ⟨200, [("Content-Type", ["text/plain"])], ⟨[], [104, 101, 108, 108, 111], ReadErr.eof⟩⟩

/-- A sample environment whose inbound envelope names the fetch command with an empty
argument map. -/
def noArgsEnv : Env :=
  { sampleEnv helloResp with decodeRequest := fun _ => .ok ⟨"fetch", []⟩ }

/-- A sample environment whose inbound envelope names the command `nope`. -/
def unknownCmdEnv : Env :=
  { sampleEnv helloResp with decodeRequest := fun _ => .ok ⟨"nope", []⟩ }

/-- A fresh writer over a flushing connection after one successful `WriteJSON`. -/
def sentWriter : httpResponseWriter :=
  ((newHTTPResponseWriter flushingConn).WriteJSON 200 [] (GoValue.text [104, 105])).2

/-! ## Basic facts -/

@[simp] theorem push_ops (c : Conn) (l : List ConnOp) : (c.push l).ops = c.ops ++ l := rfl

@[simp] theorem push_canFlush (c : Conn) (l : List ConnOp) : (c.push l).canFlush = c.canFlush :=
  rfl

@[simp] theorem push_writeErr (c : Conn) (l : List ConnOp) : (c.push l).writeErr = c.writeErr :=
  rfl

@[simp] theorem push_push (c : Conn) (a b : List ConnOp) : (c.push a).push b = c.push (a ++ b) := by
  simp [Conn.push]

@[simp] theorem push_nil (c : Conn) : c.push [] = c := by
  simp [Conn.push]

theorem events_append (a b : List ConnOp) : events (a ++ b) = events a ++ events b := by
  induction a with
  | nil => rfl
  | cons x xs ih => cases x <;> simp [events, ih]

theorem envelopes_append (a b : List ConnOp) : envelopes (a ++ b) = envelopes a ++ envelopes b := by
  induction a with
  | nil => rfl
  | cons x xs ih => cases x <;> simp [envelopes, ih]

theorem statusLines_append (a b : List ConnOp) :
    statusLines (a ++ b) = statusLines a ++ statusLines b := by
  induction a with
  | nil => rfl
  | cons x xs ih => cases x <;> simp [statusLines, ih]

theorem marshalErr_chunkPayload (env : Env) (c : Bytes) : marshalErr (chunkPayload env c) = none := by
  unfold chunkPayload
  cases env.unmarshal c <;> rfl

@[simp] theorem openStream_started (rw : httpResponseWriter) : rw.openStream.started = true := by
  unfold httpResponseWriter.openStream
  by_cases h : rw.started = true <;> simp [h]

@[simp] theorem openStream_flusher (rw : httpResponseWriter) : rw.openStream.flusher = rw.flusher := by
  unfold httpResponseWriter.openStream
  by_cases h : rw.started = true <;> simp [h]

theorem openStream_of_started (rw : httpResponseWriter) (h : rw.started = true) :
    rw.openStream = rw := by
  simp [httpResponseWriter.openStream, h]

/-- On a started, flushing writer a marshalable event is appended and flushed. -/
theorem Stream_started_flushing (t : String) (d : GoValue) (rw : httpResponseWriter)
    (hs : rw.started = true) (hf : rw.flusher = true) (hm : marshalErr d = none) :
    rw.Stream t d = (none, { rw with w := rw.w.push [ConnOp.event t d, ConnOp.flush] }) := by
  simp [httpResponseWriter.Stream, openStream_of_started rw hs, hf, hm]

/-! ## The streaming path on the HTTP writer -/

theorem emitChunk_http (env : Env) (c : Bytes) (rw : httpResponseWriter)
    (hs : rw.started = true) (hf : rw.flusher = true) :
    emitChunk env httpRW c rw = { rw with w := rw.w.push (chunkOps env c) } := by
  unfold emitChunk chunkOps
  by_cases hc : c.length > 0
  · simp only [hc, if_true]
    show (rw.Stream "data" (chunkPayload env c)).2 = _
    rw [Stream_started_flushing _ _ rw hs hf (marshalErr_chunkPayload env c)]
  · simp [hc]

theorem readLoop_http (env : Env) (lastData : Bytes) (lastErr : ReadErr) (reads : List Bytes) :
    ∀ rw : httpResponseWriter, rw.started = true → rw.flusher = true →
      readLoop env httpRW lastData lastErr reads rw =
        { rw with w := rw.w.push (loopOps env lastData lastErr reads) } := by
  induction reads with
  | nil =>
    intro rw hs hf
    simp only [readLoop, loopOps, List.flatMap_nil, List.nil_append]
    rw [emitChunk_http env lastData rw hs hf]
    cases lastErr with
    | eof => simp [errOps]
    | other msg =>
      show (httpResponseWriter.Stream "error" (GoValue.errorMap msg) _).2 = _
      rw [Stream_started_flushing]
      · simp [errOps]
      · exact hs
      · exact hf
      · rfl
  | cons c cs ih =>
    intro rw hs hf
    simp only [readLoop]
    rw [emitChunk_http env c rw hs hf, ih]
    · simp [loopOps]
    · exact hs
    · exact hf

/-- On a flushing writer a streaming run opens the stream if needed, then appends the
start frame, the loop frames and the end frame, and returns no error. -/
theorem handleStreamingResponse_http (env : Env) (resp : Response) (rw : httpResponseWriter)
    (hf : rw.flusher = true) :
    FetchCommand.handleStreamingResponse env httpRW resp rw =
      (none, { w := rw.openStream.w.push (streamOps env resp), flusher := true, started := true }) := by
  have hs : rw.openStream.started = true := openStream_started rw
  have hf1 : rw.openStream.flusher = true := by simp [hf]
  have hstart : httpRW.Stream "start" (GoValue.startInfo resp.StatusCode resp.Header) rw =
      (none, { rw.openStream with
        w := rw.openStream.w.push
          [ConnOp.event "start" (GoValue.startInfo resp.StatusCode resp.Header), ConnOp.flush] }) := by
    simp [httpRW, httpResponseWriter.Stream, hf, marshalErr]
  unfold FetchCommand.handleStreamingResponse
  rw [hstart]
  simp only
  rw [readLoop_http]
  · show httpResponseWriter.End _ = _
    simp [httpResponseWriter.End, hf, streamOps]
  · exact hs
  · exact hf1

theorem events_chunkOps (env : Env) (c : Bytes) : events (chunkOps env c) = dataEvents env [c] := by
  unfold chunkOps dataEvents
  by_cases hc : c.length > 0 <;> simp [hc, events]

theorem dataEvents_append (env : Env) (a b : List Bytes) :
    dataEvents env (a ++ b) = dataEvents env a ++ dataEvents env b := by
  simp [dataEvents]

theorem events_flatMap_chunkOps (env : Env) (reads : List Bytes) :
    events (reads.flatMap (chunkOps env)) = dataEvents env reads := by
  induction reads with
  | nil => rfl
  | cons c cs ih =>
    have h : c :: cs = [c] ++ cs := rfl
    rw [List.flatMap_cons, events_append, ih, events_chunkOps, h, dataEvents_append]

theorem events_errOps (e : ReadErr) : events (errOps e) = errEvents e := by
  cases e <;> rfl

/-- The events of a streaming run: start, one data event per non-empty read, the error
event if the body ended in an error, end. -/
theorem events_streamOps (env : Env) (resp : Response) :
    events (streamOps env resp) =
      ("start", GoValue.startInfo resp.StatusCode resp.Header) ::
        (dataEvents env resp.Body.allReads ++ errEvents resp.Body.lastErr ++
          [("end", GoValue.json (Json.obj []))]) := by
  simp only [streamOps, loopOps, events_append, events_flatMap_chunkOps, events_chunkOps,
    events_errOps, BodyReader.allReads, dataEvents_append]
  simp [events]

/-! ## The call log of the recording writer -/

theorem emitChunk_recording {W : Type} (env : Env) (rw : ResponseWriter W) (c : Bytes) (w : W)
    (log : List Call) :
    emitChunk env (recording rw) c (w, log) = (emitChunk env rw c w, log ++ chunkCalls env c) := by
  unfold emitChunk chunkCalls
  by_cases hc : c.length > 0 <;> simp [hc, recording]

theorem readLoop_recording {W : Type} (env : Env) (rw : ResponseWriter W) (lastData : Bytes)
    (lastErr : ReadErr) (reads : List Bytes) :
    ∀ (w : W) (log : List Call),
      readLoop env (recording rw) lastData lastErr reads (w, log) =
        (readLoop env rw lastData lastErr reads w, log ++ loopCalls env lastData lastErr reads) := by
  induction reads with
  | nil =>
    intro w log
    simp only [readLoop, loopCalls, List.flatMap_nil, List.nil_append, emitChunk_recording]
    cases lastErr <;> simp [errCalls, recording]
  | cons c cs ih =>
    intro w log
    simp only [readLoop, emitChunk_recording, ih]
    simp [loopCalls]

theorem handleStreamingResponse_recording {W : Type} (env : Env) (rw : ResponseWriter W)
    (resp : Response) (w : W) (log : List Call) :
    FetchCommand.handleStreamingResponse env (recording rw) resp (w, log) =
      ((FetchCommand.handleStreamingResponse env rw resp w).1,
        ((FetchCommand.handleStreamingResponse env rw resp w).2, log ++ streamingCalls env rw resp w)) := by
  unfold FetchCommand.handleStreamingResponse streamingCalls
  rcases h : rw.Stream "start" (GoValue.startInfo resp.StatusCode resp.Header) w with ⟨e, w1⟩
  have h1 : (recording rw).Stream "start" (GoValue.startInfo resp.StatusCode resp.Header) (w, log) =
      (e, (w1, log ++ [Call.Stream "start" (GoValue.startInfo resp.StatusCode resp.Header)])) := by
    simp [recording, h]
  rw [h1]
  cases e with
  | some err => simp
  | none =>
    simp only [readLoop_recording]
    simp [recording]

theorem handleRegularResponse_recording {W : Type} (env : Env) (rw : ResponseWriter W)
    (resp : Response) (w : W) (log : List Call) :
    FetchCommand.handleRegularResponse env (recording rw) resp (w, log) =
      ((FetchCommand.handleRegularResponse env rw resp w).1,
        ((FetchCommand.handleRegularResponse env rw resp w).2, log ++ regularCalls env resp)) := by
  unfold FetchCommand.handleRegularResponse regularCalls
  cases ReadAll resp.Body with
  | error e => simp
  | ok respBody =>
    by_cases hct : resp.Header.Get "Content-Type" = "application/json"
    · simp only [hct, if_true]
      cases env.unmarshal respBody with
      | error e => simp
      | ok v => simp [recording]
    · simp [hct, recording]

/-! ## Execute after a successful outbound call -/

/-- When the required arguments are strings, the request can be built and the outbound
call succeeds, `Execute` is the selected response handler. -/
theorem Execute_outbound_ok {W : Type} (env : Env) (rw : ResponseWriter W) (args : Args)
    (writer : W) (m u : String) (resp : Response)
    (hm : args.lookup "method" = some (Json.str m))
    (hu : args.lookup "url" = some (Json.str u))
    (hreq : env.newRequest m u (args.lookup "body") = none)
    (hsend : env.roundTrip ⟨m, u, args.lookup "body", stringHeaders args⟩ = .ok resp) :
    FetchCommand.Execute env rw args writer =
      ⟨(if streamFlag args then FetchCommand.handleStreamingResponse env rw resp writer
          else FetchCommand.handleRegularResponse env rw resp writer).1,
        (if streamFlag args then FetchCommand.handleStreamingResponse env rw resp writer
          else FetchCommand.handleRegularResponse env rw resp writer).2,
        [NetOp.newRequest m u (args.lookup "body"),
          NetOp.send ⟨m, u, args.lookup "body", stringHeaders args⟩]⟩ := by
  unfold FetchCommand.Execute
  simp only [hm, hu]
  cases hb : args.lookup "body" with
  | none =>
    rw [hb] at hreq hsend
    simp only [hreq, hsend]
  | some b =>
    rw [hb] at hreq hsend
    simp only [marshalErr, hreq, hsend]

theorem dataEvents_tag (env : Env) (reads : List Bytes) :
    ∀ e ∈ dataEvents env reads, e.1 = "data" := by
  intro e he
  simp only [dataEvents, List.mem_map] at he
  obtain ⟨c, _, rfl⟩ := he
  rfl

theorem errEvents_tag (err : ReadErr) : ∀ e ∈ errEvents err, e.1 = "error" := by
  intro e he
  cases err with
  | eof => simp [errEvents] at he
  | other msg =>
    simp only [errEvents, List.mem_singleton] at he
    rw [he]

theorem loopCalls_not_WriteJSON (env : Env) (lastData : Bytes) (lastErr : ReadErr)
    (reads : List Bytes) : ∀ c ∈ loopCalls env lastData lastErr reads, c.isWriteJSON = false := by
  intro c hc
  simp only [loopCalls, List.mem_append, List.mem_flatMap] at hc
  rcases hc with ⟨x, _, hx⟩ | hx | hx
  · unfold chunkCalls at hx
    split at hx
    · simp only [List.mem_singleton] at hx
      rw [hx]; rfl
    · simp at hx
  · unfold chunkCalls at hx
    split at hx
    · simp only [List.mem_singleton] at hx
      rw [hx]; rfl
    · simp at hx
  · cases lastErr with
    | eof => simp [errCalls] at hx
    | other msg =>
      simp only [errCalls, List.mem_singleton] at hx
      rw [hx]; rfl

theorem streamingCalls_not_WriteJSON {W : Type} (env : Env) (rw : ResponseWriter W)
    (resp : Response) (w : W) : ∀ c ∈ streamingCalls env rw resp w, c.isWriteJSON = false := by
  intro c hc
  unfold streamingCalls at hc
  rcases List.mem_cons.1 hc with h | h
  · rw [h]; rfl
  · split at h
    · simp at h
    · rcases List.mem_append.1 h with h | h
      · exact loopCalls_not_WriteJSON env _ _ _ c h
      · simp only [List.mem_singleton] at h
        rw [h]; rfl

/-! ## C1: one start event first, one end event last, no WriteJSON -/

/-- Claim C1: for every `Execute` run with `stream` true whose outbound call succeeds, on
a writer whose connection can flush, and for every upstream body, the events written
during the run begin with the `start` event and contain no other, finish with the `end`
event and contain no other, and the call log holds no `WriteJSON` call. -/
theorem C1_stream_one_start_first_one_end_last (env : Env) (args : Args)
    (rw : httpResponseWriter) (m u : String) (resp : Response)
    (hm : args.lookup "method" = some (Json.str m))
    (hu : args.lookup "url" = some (Json.str u))
    (hstream : args.lookup "stream" = some (Json.bool true))
    (hreq : env.newRequest m u (args.lookup "body") = none)
    (hsend : env.roundTrip ⟨m, u, args.lookup "body", stringHeaders args⟩ = .ok resp)
    (hflush : rw.flusher = true) :
    ∃ new : List ConnOp,
      (FetchCommand.Execute env (recording httpRW) args (rw, [])).writer.1.w.ops
          = rw.w.ops ++ new ∧
      (events new).head? = some ("start", GoValue.startInfo resp.StatusCode resp.Header) ∧
      (events new).countP (fun e => decide (e.1 = "start")) = 1 ∧
      (events new).getLast? = some ("end", GoValue.json (Json.obj [])) ∧
      (events new).countP (fun e => decide (e.1 = "end")) = 1 ∧
      ∀ c ∈ (FetchCommand.Execute env (recording httpRW) args (rw, [])).writer.2,
        c.isWriteJSON = false := by
  have hsf : streamFlag args = true := by simp [streamFlag, hstream]
  rw [Execute_outbound_ok env (recording httpRW) args (rw, []) m u resp hm hu hreq hsend]
  simp only [hsf, if_true, handleStreamingResponse_recording,
    handleStreamingResponse_http env resp rw hflush, List.nil_append]
  have hmid : ∀ e ∈ dataEvents env resp.Body.allReads ++ errEvents resp.Body.lastErr,
      e.1 = "data" ∨ e.1 = "error" := by
    intro e he
    rcases List.mem_append.1 he with h | h
    · exact Or.inl (dataEvents_tag env _ e h)
    · exact Or.inr (errEvents_tag _ e h)
  have hns : (dataEvents env resp.Body.allReads ++ errEvents resp.Body.lastErr).countP
      (fun e => decide (e.1 = "start")) = 0 := by
    rw [List.countP_eq_zero]
    intro e he
    rcases hmid e he with h | h <;> simp [h]
  have hne : (dataEvents env resp.Body.allReads ++ errEvents resp.Body.lastErr).countP
      (fun e => decide (e.1 = "end")) = 0 := by
    rw [List.countP_eq_zero]
    intro e he
    rcases hmid e he with h | h <;> simp [h]
  by_cases hst : rw.started = true
  · refine ⟨streamOps env resp, ?_, ?_, ?_, ?_, ?_, ?_⟩
    · simp [openStream_of_started rw hst]
    · simp [events_streamOps]
    · rw [events_streamOps, List.countP_cons, List.countP_append, hns]
      simp [List.countP_cons]
    · rw [events_streamOps, ← List.cons_append, List.getLast?_append]
      simp
    · rw [events_streamOps, List.countP_cons, List.countP_append, hne]
      simp [List.countP_cons]
    · exact streamingCalls_not_WriteJSON env httpRW resp rw
  · refine ⟨[ConnOp.headerSet "Content-Type" "text/event-stream",
        ConnOp.headerSet "Cache-Control" "no-cache",
        ConnOp.headerSet "Connection" "keep-alive",
        ConnOp.writeHeader 200] ++ streamOps env resp, ?_, ?_, ?_, ?_, ?_, ?_⟩
    · simp [httpResponseWriter.openStream, hst]
    · simp [events_append, events, events_streamOps]
    · rw [events_append, events_streamOps, List.countP_append, List.countP_cons,
        List.countP_append, hns]
      simp [List.countP_cons, events]
    · rw [events_append, events_streamOps, ← List.cons_append, ← List.append_assoc,
        List.getLast?_append]
      simp
    · rw [events_append, events_streamOps, List.countP_append, List.countP_cons,
        List.countP_append, hne]
      simp [List.countP_cons, events]
    · exact streamingCalls_not_WriteJSON env httpRW resp rw

/-- Witness of C1: a streaming fetch on a fresh flushing connection whose upstream body
delivers two chunks and then fails. -/
theorem C1_stream_one_start_first_one_end_last_witness :
    ∃ new : List ConnOp,
      (FetchCommand.Execute (sampleEnv brokenResp) (recording httpRW) streamArgs
          (newHTTPResponseWriter flushingConn, [])).writer.1.w.ops
          = (newHTTPResponseWriter flushingConn).w.ops ++ new ∧
      (events new).head? = some ("start", GoValue.startInfo brokenResp.StatusCode brokenResp.Header) ∧
      (events new).countP (fun e => decide (e.1 = "start")) = 1 ∧
      (events new).getLast? = some ("end", GoValue.json (Json.obj [])) ∧
      (events new).countP (fun e => decide (e.1 = "end")) = 1 ∧
      ∀ c ∈ (FetchCommand.Execute (sampleEnv brokenResp) (recording httpRW) streamArgs
          (newHTTPResponseWriter flushingConn, [])).writer.2,
        c.isWriteJSON = false :=
  C1_stream_one_start_first_one_end_last (sampleEnv brokenResp) streamArgs
    (newHTTPResponseWriter flushingConn) "GET" "http://up" brokenResp rfl rfl rfl rfl rfl rfl

/-! ## C2: a read error in the middle of a stream -/

theorem envelopes_of_frames (ops : List ConnOp) (h : ∀ o ∈ ops, o.isFrame = true) :
    envelopes ops = [] := by
  induction ops with
  | nil => rfl
  | cons o os ih =>
    have ho := h o (List.mem_cons_self _ _)
    have hos := ih fun x hx => h x (List.mem_cons_of_mem _ hx)
    cases o <;> simp_all [envelopes, ConnOp.isFrame]

theorem statusLines_of_frames (ops : List ConnOp) (h : ∀ o ∈ ops, o.isFrame = true) :
    statusLines ops = [] := by
  induction ops with
  | nil => rfl
  | cons o os ih =>
    have ho := h o (List.mem_cons_self _ _)
    have hos := ih fun x hx => h x (List.mem_cons_of_mem _ hx)
    cases o <;> simp_all [statusLines, ConnOp.isFrame]

theorem chunkOps_frames (env : Env) (c : Bytes) : ∀ o ∈ chunkOps env c, o.isFrame = true := by
  intro o ho
  unfold chunkOps at ho
  split at ho
  · simp only [List.mem_cons, List.mem_singleton, List.not_mem_nil, or_false] at ho
    rcases ho with h | h <;> rw [h] <;> rfl
  · simp at ho

theorem errOps_frames (e : ReadErr) : ∀ o ∈ errOps e, o.isFrame = true := by
  intro o ho
  cases e with
  | eof => simp [errOps] at ho
  | other msg =>
    simp only [errOps, List.mem_cons, List.mem_singleton, List.not_mem_nil, or_false] at ho
    rcases ho with h | h <;> rw [h] <;> rfl

theorem streamOps_frames (env : Env) (resp : Response) :
    ∀ o ∈ streamOps env resp, o.isFrame = true := by
  intro o ho
  simp only [streamOps, loopOps, List.mem_append, List.mem_flatMap, List.mem_cons,
    List.mem_singleton, List.not_mem_nil, or_false] at ho
  rcases ho with (h | h) | (⟨c, _, h⟩ | h | h) | h | h
  · rw [h]; rfl
  · rw [h]; rfl
  · exact chunkOps_frames env c o h
  · exact chunkOps_frames env _ o h
  · exact errOps_frames _ o h
  · rw [h]; rfl
  · rw [h]; rfl

theorem fresh_openStream_ops (conn : Conn) (ops : List ConnOp) :
    ((newHTTPResponseWriter conn).openStream.w.push ops).ops = conn.ops ++ (openOps ++ ops) := by
  simp [httpResponseWriter.openStream, newHTTPResponseWriter, openOps]

/-- Claim C2: for every `k`, when the upstream body of a streaming run on a fresh writer
over a flushing connection returns `k` non-empty reads and ends in a read error other
than `io.EOF`, the events written are `start`, `k` `data` events, one `error` event
carrying the error text, and `end`, in that order; the handler returns no error, the
dispatcher adds nothing to the connection, no envelope is written and the only status
line written is 200. -/
theorem C2_read_error_after_k_chunks (env : Env) (cors : String) (resp : Response)
    (conn : Conn) (msg : String) (k : Nat)
    (hflush : conn.canFlush = true)
    (herr : resp.Body.lastErr = ReadErr.other msg)
    (hk : (resp.Body.allReads.filter fun c => decide (c.length > 0)).length = k) :
    ∃ ds : List (String × GoValue),
      ds.length = k ∧ (∀ d ∈ ds, d.1 = "data") ∧
      events (FetchCommand.handleStreamingResponse env httpRW resp (newHTTPResponseWriter conn)).2.w.ops
        = events conn.ops ++
            (("start", GoValue.startInfo resp.StatusCode resp.Header) :: ds ++
              [("error", GoValue.errorMap msg), ("end", GoValue.json (Json.obj []))]) ∧
      (FetchCommand.handleStreamingResponse env httpRW resp (newHTTPResponseWriter conn)).1 = none ∧
      afterExecute cors (FetchCommand.handleStreamingResponse env httpRW resp (newHTTPResponseWriter conn))
        = (FetchCommand.handleStreamingResponse env httpRW resp (newHTTPResponseWriter conn)).2.w ∧
      envelopes (FetchCommand.handleStreamingResponse env httpRW resp (newHTTPResponseWriter conn)).2.w.ops
        = envelopes conn.ops ∧
      statusLines (FetchCommand.handleStreamingResponse env httpRW resp (newHTTPResponseWriter conn)).2.w.ops
        = statusLines conn.ops ++ [200] := by
  have hf : (newHTTPResponseWriter conn).flusher = true := hflush
  rw [handleStreamingResponse_http env resp _ hf]
  refine ⟨dataEvents env resp.Body.allReads, ?_, dataEvents_tag env _, ?_, rfl, rfl, ?_, ?_⟩
  · simpa [dataEvents] using hk
  · have ho : events openOps = [] := rfl
    simp only [fresh_openStream_ops, events_append, events_streamOps, herr, errEvents, ho]
    simp
  · have ho : envelopes openOps = [] := rfl
    simp only [fresh_openStream_ops, envelopes_append,
      envelopes_of_frames _ (streamOps_frames env resp), ho]
    simp
  · have ho : statusLines openOps = [200] := rfl
    simp only [fresh_openStream_ops, statusLines_append,
      statusLines_of_frames _ (streamOps_frames env resp), ho]
    simp

/-- Witness of C2 with `k = 2`: reads `hi`, an empty read, `yo`, then the error `reset`. -/
theorem C2_read_error_after_k_chunks_witness :
    ∃ ds : List (String × GoValue),
      ds.length = 2 ∧ (∀ d ∈ ds, d.1 = "data") ∧
      events (FetchCommand.handleStreamingResponse (sampleEnv brokenResp) httpRW brokenResp
          (newHTTPResponseWriter flushingConn)).2.w.ops
        = events flushingConn.ops ++
            (("start", GoValue.startInfo brokenResp.StatusCode brokenResp.Header) :: ds ++
              [("error", GoValue.errorMap "reset"), ("end", GoValue.json (Json.obj []))]) ∧
      (FetchCommand.handleStreamingResponse (sampleEnv brokenResp) httpRW brokenResp
          (newHTTPResponseWriter flushingConn)).1 = none ∧
      afterExecute "" (FetchCommand.handleStreamingResponse (sampleEnv brokenResp) httpRW brokenResp
          (newHTTPResponseWriter flushingConn))
        = (FetchCommand.handleStreamingResponse (sampleEnv brokenResp) httpRW brokenResp
          (newHTTPResponseWriter flushingConn)).2.w ∧
      envelopes (FetchCommand.handleStreamingResponse (sampleEnv brokenResp) httpRW brokenResp
          (newHTTPResponseWriter flushingConn)).2.w.ops
        = envelopes flushingConn.ops ∧
      statusLines (FetchCommand.handleStreamingResponse (sampleEnv brokenResp) httpRW brokenResp
          (newHTTPResponseWriter flushingConn)).2.w.ops
        = statusLines flushingConn.ops ++ [200] :=
  C2_read_error_after_k_chunks (sampleEnv brokenResp) "" brokenResp flushingConn "reset" 2
    rfl rfl rfl

/-! ## C3: buffered mode -/

/-- Claim C3: for every run of `Execute` in buffered mode (`stream` absent, false or not a
bool) whose outbound call succeeds and whose upstream body is read to `io.EOF`, on any
writer: when the upstream `Content-Type` is `application/json` the call log is the one
call `WriteJSON(status, headers, decoded body)` if the whole body decodes, and is empty,
with the writer untouched and an error returned, if it does not; for any other
`Content-Type` the call log is the one call `WriteJSON(status, headers, body as string)`;
`Stream` and `End` are never called. -/
theorem C3_buffered_mode_one_WriteJSON {W : Type} (env : Env) (rw : ResponseWriter W)
    (args : Args) (w : W) (m u : String) (resp : Response)
    (hm : args.lookup "method" = some (Json.str m))
    (hu : args.lookup "url" = some (Json.str u))
    (hstream : args.lookup "stream" ≠ some (Json.bool true))
    (hreq : env.newRequest m u (args.lookup "body") = none)
    (hsend : env.roundTrip ⟨m, u, args.lookup "body", stringHeaders args⟩ = .ok resp)
    (heof : resp.Body.lastErr = ReadErr.eof) :
    (FetchCommand.Execute env (recording rw) args (w, [])).writer.2 =
      (if resp.Header.Get "Content-Type" = "application/json" then
        match env.unmarshal (resp.Body.reads.flatten ++ resp.Body.lastData) with
        | .ok v => [Call.WriteJSON resp.StatusCode resp.Header (GoValue.json v)]
        | .error _ => []
      else
        [Call.WriteJSON resp.StatusCode resp.Header
          (GoValue.text (resp.Body.reads.flatten ++ resp.Body.lastData))]) ∧
    (∀ e, resp.Header.Get "Content-Type" = "application/json" →
      env.unmarshal (resp.Body.reads.flatten ++ resp.Body.lastData) = .error e →
      (FetchCommand.Execute env (recording rw) args (w, [])).err
          = some ("failed to parse JSON response: " ++ e) ∧
      (FetchCommand.Execute env (recording rw) args (w, [])).writer.1 = w) ∧
    (∀ c ∈ (FetchCommand.Execute env (recording rw) args (w, [])).writer.2,
      c.isWriteJSON = true) := by
  have hsf : streamFlag args = false := by
    unfold streamFlag
    split
    · rename_i b hb
      cases b
      · rfl
      · exact absurd hb hstream
    · rfl
  have hread : ReadAll resp.Body = .ok (resp.Body.reads.flatten ++ resp.Body.lastData) := by
    simp [ReadAll, heof]
  rw [Execute_outbound_ok env (recording rw) args (w, []) m u resp hm hu hreq hsend]
  simp only [hsf, handleRegularResponse_recording, List.nil_append, Bool.false_eq_true, if_false]
  have hcalls : regularCalls env resp =
      (if resp.Header.Get "Content-Type" = "application/json" then
        match env.unmarshal (resp.Body.reads.flatten ++ resp.Body.lastData) with
        | .ok v => [Call.WriteJSON resp.StatusCode resp.Header (GoValue.json v)]
        | .error _ => []
      else
        [Call.WriteJSON resp.StatusCode resp.Header
          (GoValue.text (resp.Body.reads.flatten ++ resp.Body.lastData))]) := by
    simp only [regularCalls, hread]
    by_cases hct : resp.Header.Get "Content-Type" = "application/json"
    · simp only [hct, if_true]
      cases env.unmarshal (resp.Body.reads.flatten ++ resp.Body.lastData) <;> rfl
    · simp only [hct, if_false]
  refine ⟨hcalls, ?_, ?_⟩
  · intro e hct he
    simp [FetchCommand.handleRegularResponse, hread, hct, he]
  · intro c hc
    rw [hcalls] at hc
    split at hc
    · split at hc
      · simp only [List.mem_singleton] at hc
        rw [hc]; rfl
      · simp at hc
    · simp only [List.mem_singleton] at hc
      rw [hc]; rfl

/-- Witness of C3: the upstream body `{"a":1}` served as `application/json` reaches
`WriteJSON` as the decoded object, not as a string; the upstream body `hello` served as
`text/plain` reaches it as the string `hello`. -/
theorem C3_buffered_mode_one_WriteJSON_witness :
    (FetchCommand.Execute (sampleEnv jsonResp) (recording httpRW) bufferedArgs
        (newHTTPResponseWriter flushingConn, [])).writer.2 =
      [Call.WriteJSON 200 [("Content-Type", ["application/json"])]
        (GoValue.json (Json.obj [("a", Json.num 1)]))] ∧
    (FetchCommand.Execute (sampleEnv helloResp) (recording httpRW) bufferedArgs
        (newHTTPResponseWriter flushingConn, [])).writer.2 =
      [Call.WriteJSON 200 [("Content-Type", ["text/plain"])]
        (GoValue.text [104, 101, 108, 108, 111])] :=
  ⟨(C3_buffered_mode_one_WriteJSON (sampleEnv jsonResp) httpRW bufferedArgs
      (newHTTPResponseWriter flushingConn) "GET" "http://up" jsonResp rfl rfl
      (by simp [bufferedArgs, List.lookup]) rfl rfl rfl).1,
   (C3_buffered_mode_one_WriteJSON (sampleEnv helloResp) httpRW bufferedArgs
      (newHTTPResponseWriter flushingConn) "GET" "http://up" helloResp rfl rfl
      (by simp [bufferedArgs, List.lookup]) rfl rfl rfl).1⟩

/-! ## C4: data events and reads -/

theorem events_openStream (rw : httpResponseWriter) :
    events rw.openStream.w.ops = events rw.w.ops := by
  unfold httpResponseWriter.openStream
  by_cases h : rw.started = true
  · simp [h]
  · simp [h, events_append, events]

theorem chunkPayload_cases (env : Env) (c : Bytes) :
    (∃ v, env.unmarshal c = .ok v ∧ chunkPayload env c = GoValue.json v) ∨
      ((∀ v, env.unmarshal c ≠ .ok v) ∧ chunkPayload env c = GoValue.text c) := by
  unfold chunkPayload
  cases h : env.unmarshal c with
  | ok v => exact Or.inl ⟨v, rfl, rfl⟩
  | error e => exact Or.inr ⟨(fun v hv => by cases hv), rfl⟩

/-- Claim C4: for every streaming run on a writer whose connection can flush, and every
sequence of reads that respects the 1024-byte buffer, the events written are `start`,
then one `data` event per read that returned at least one byte, in read order (reads of
zero bytes give nothing), then the `error` event if the body ended in an error, then
`end`; each `data` payload is the decoded value when the bytes of its read alone decode
and those bytes as a string otherwise, and each such read is at most 1024 bytes. -/
theorem C4_data_events_follow_reads (env : Env) (resp : Response) (rw : httpResponseWriter)
    (hflush : rw.flusher = true)
    (hfit : ∀ c ∈ resp.Body.allReads, c.length ≤ bufferSize) :
    ∃ ds : List (String × GoValue),
      events (FetchCommand.handleStreamingResponse env httpRW resp rw).2.w.ops
        = events rw.w.ops ++
            (("start", GoValue.startInfo resp.StatusCode resp.Header) :: ds ++
              errEvents resp.Body.lastErr ++ [("end", GoValue.json (Json.obj []))]) ∧
      List.Forall₂ (DataEventOf env)
        (resp.Body.allReads.filter fun c => decide (c.length > 0)) ds ∧
      bufferSize = 1024 := by
  rw [handleStreamingResponse_http env resp rw hflush]
  refine ⟨dataEvents env resp.Body.allReads, ?_, ?_, rfl⟩
  · simp only [push_ops, events_append, events_openStream, events_streamOps]
    simp
  · unfold dataEvents
    rw [List.forall₂_map_right_iff, List.forall₂_same]
    intro c hc
    exact ⟨rfl, hfit c (List.mem_of_mem_filter hc), chunkPayload_cases env c⟩

/-- Witness of C4: reads `hi`, an empty read, `yo`, then an empty read with an error. -/
theorem C4_data_events_follow_reads_witness :
    ∃ ds : List (String × GoValue),
      events (FetchCommand.handleStreamingResponse (sampleEnv brokenResp) httpRW brokenResp
          (newHTTPResponseWriter flushingConn)).2.w.ops
        = events (newHTTPResponseWriter flushingConn).w.ops ++
            (("start", GoValue.startInfo brokenResp.StatusCode brokenResp.Header) :: ds ++
              errEvents brokenResp.Body.lastErr ++ [("end", GoValue.json (Json.obj []))]) ∧
      List.Forall₂ (DataEventOf (sampleEnv brokenResp))
        (brokenResp.Body.allReads.filter fun c => decide (c.length > 0)) ds ∧
      bufferSize = 1024 :=
  C4_data_events_follow_reads (sampleEnv brokenResp) brokenResp
    (newHTTPResponseWriter flushingConn) rfl (by decide)

/-! ## C7: WriteJSON only from the idle state -/

theorem envelopes_headerAdds (h : Header) : envelopes (headerAdds h) = [] := by
  unfold headerAdds
  induction h with
  | nil => rfl
  | cons kv rest ih =>
    rw [List.flatMap_cons, envelopes_append, ih, List.append_nil]
    induction kv.2 with
    | nil => rfl
    | cons v vs ihv => simpa [envelopes] using ihv

theorem WriteJSON_of_started (sc : Int) (h : Header) (b : GoValue) (rw : httpResponseWriter)
    (hs : rw.started = true) :
    rw.WriteJSON sc h b = (some "response already started", rw) := by
  simp [httpResponseWriter.WriteJSON, hs]

theorem WriteJSON_sets_started (sc : Int) (h : Header) (b : GoValue) (rw : httpResponseWriter) :
    (rw.WriteJSON sc h b).2.started = true := by
  unfold httpResponseWriter.WriteJSON
  by_cases hs : rw.started = true
  · simp [hs]
  · simp only [hs]
    cases marshalErr b <;> simp

theorem WriteJSON_envelopes_idle (sc : Int) (h : Header) (b : GoValue) (rw : httpResponseWriter)
    (hs : rw.started = false) :
    ∃ es, envelopes (rw.WriteJSON sc h b).2.w.ops = envelopes rw.w.ops ++ es ∧ es.length ≤ 1 := by
  unfold httpResponseWriter.WriteJSON
  simp only [hs]
  cases marshalErr b with
  | some e =>
    refine ⟨[], ?_, by simp⟩
    simp [envelopes_append, envelopes_headerAdds, envelopes]
  | none =>
    refine ⟨[(sc, h, b)], ?_, by simp⟩
    simp [envelopes_append, envelopes_headerAdds, envelopes]

theorem Stream_sets_started (t : String) (d : GoValue) (rw : httpResponseWriter) :
    (rw.Stream t d).2.started = true := by
  unfold httpResponseWriter.Stream
  by_cases hf : rw.flusher = true
  · simp only [openStream_flusher, hf, if_true]
    cases marshalErr d <;> simp
  · simp [hf]

theorem envelopes_openStream (rw : httpResponseWriter) :
    envelopes rw.openStream.w.ops = envelopes rw.w.ops := by
  unfold httpResponseWriter.openStream
  by_cases h : rw.started = true
  · simp [h]
  · simp [h, envelopes_append, envelopes]

theorem Stream_envelopes (t : String) (d : GoValue) (rw : httpResponseWriter) :
    envelopes (rw.Stream t d).2.w.ops = envelopes rw.w.ops := by
  unfold httpResponseWriter.Stream
  by_cases hf : rw.flusher = true
  · simp only [openStream_flusher, hf, if_true]
    cases marshalErr d with
    | some e => simp [envelopes_openStream]
    | none => simp [envelopes_append, envelopes_openStream, envelopes]
  · simp [hf, envelopes_openStream]

theorem End_started (rw : httpResponseWriter) : rw.End.2.started = rw.started := by
  unfold httpResponseWriter.End
  by_cases hs : rw.started = true <;> by_cases hf : rw.flusher = true <;> simp [hs, hf]

theorem End_envelopes (rw : httpResponseWriter) :
    envelopes rw.End.2.w.ops = envelopes rw.w.ops := by
  unfold httpResponseWriter.End
  by_cases hs : rw.started = true <;> by_cases hf : rw.flusher = true <;>
    simp [hs, hf, envelopes_append, envelopes]

theorem runCalls_started (cs : List Call) :
    ∀ rw : httpResponseWriter,
      (runCalls cs rw).started = (rw.started || cs.any Call.startsOutput) := by
  induction cs with
  | nil => intro rw; simp [runCalls]
  | cons c cs ih =>
    intro rw
    have hstep : runCalls (c :: cs) rw = runCalls cs (c.run rw) := rfl
    rw [hstep, ih]
    cases c with
    | WriteJSON sc h b => simp [Call.run, WriteJSON_sets_started, Call.startsOutput]
    | Stream t d => simp [Call.run, Stream_sets_started, Call.startsOutput]
    | End => simp [Call.run, End_started, Call.startsOutput]

theorem runCalls_envelopes (cs : List Call) :
    ∀ rw : httpResponseWriter,
      ∃ es, envelopes (runCalls cs rw).w.ops = envelopes rw.w.ops ++ es ∧ es.length ≤ 1 ∧
        (rw.started = true → es = []) := by
  induction cs with
  | nil => intro rw; exact ⟨[], by simp [runCalls], by simp, fun _ => rfl⟩
  | cons c cs ih =>
    intro rw
    have hstep : runCalls (c :: cs) rw = runCalls cs (c.run rw) := rfl
    rw [hstep]
    obtain ⟨es, hes, hlen, hnil⟩ := ih (c.run rw)
    cases c with
    | WriteJSON sc h b =>
      by_cases hs : rw.started = true
      · refine ⟨es, ?_, hlen, fun _ => ?_⟩
        · rw [hes]; simp [Call.run, WriteJSON_of_started sc h b rw hs]
        · exact hnil (by simp [Call.run, WriteJSON_sets_started])
      · have hs0 : rw.started = false := by simpa using hs
        obtain ⟨e1, he1, hl1⟩ := WriteJSON_envelopes_idle sc h b rw hs0
        have hes0 : es = [] := hnil (by simp [Call.run, WriteJSON_sets_started])
        refine ⟨e1, ?_, hl1, fun h1 => absurd h1 hs⟩
        rw [hes, hes0, List.append_nil]
        exact he1
    | Stream t d =>
      have hes0 : es = [] := hnil (by simp [Call.run, Stream_sets_started])
      refine ⟨[], ?_, by simp, fun _ => rfl⟩
      rw [hes, hes0]
      simp [Call.run, Stream_envelopes]
    | End =>
      refine ⟨es, ?_, hlen, fun h1 => hnil ?_⟩
      · rw [hes]; simp [Call.run, End_envelopes]
      · simp [Call.run, End_started, h1]

/-- Claim C7: for every writer and every `(statusCode, headers, body)`: if `started` is
set, `WriteJSON` returns the error `response already started` and leaves the writer and
its connection exactly as they were; so a `WriteJSON` that returns no error was called
with `started` unset; on an instance made by `newHTTPResponseWriter`, `started` is set
exactly when a `WriteJSON` or `Stream` call was made; and over any sequence of calls on
such an instance at most one envelope is written to the connection. -/
theorem C7_WriteJSON_only_when_idle (rw : httpResponseWriter) (statusCode : Int)
    (headers : Header) (body : GoValue) (conn : Conn) (cs : List Call) :
    (rw.started = true →
      rw.WriteJSON statusCode headers body = (some "response already started", rw)) ∧
    ((rw.WriteJSON statusCode headers body).1 = none → rw.started = false) ∧
    (runCalls cs (newHTTPResponseWriter conn)).started = cs.any Call.startsOutput ∧
    ∃ es, envelopes (runCalls cs (newHTTPResponseWriter conn)).w.ops = envelopes conn.ops ++ es ∧
      es.length ≤ 1 := by
  refine ⟨WriteJSON_of_started statusCode headers body rw, ?_, ?_, ?_⟩
  · intro h
    by_cases hs : rw.started = true
    · rw [WriteJSON_of_started statusCode headers body rw hs] at h
      cases h
    · simpa using hs
  · rw [runCalls_started]
    simp [newHTTPResponseWriter]
  · obtain ⟨es, hes, hlen, _⟩ := runCalls_envelopes cs (newHTTPResponseWriter conn)
    exact ⟨es, hes, hlen⟩

/-! ## C8: what the dispatcher does with the handler result -/

theorem handleRequest_dispatch (env : Env) (cors : String) (commands : String → Option Command)
    (w : Conn) (r : HttpRequest) (req : Request) (cmd : Command)
    (hpost : r.Method = "POST")
    (hdec : env.decodeRequest r.Body = .ok req)
    (hcmd : commands req.Cmd = some cmd) :
    handleRequest env cors commands w r =
      ⟨afterExecute cors (cmd.Execute httpRW req.Args
          (newHTTPResponseWriter (if cors ≠ "" then setCORSHeaders w cors else w))),
        some (newHTTPResponseWriter (if cors ≠ "" then setCORSHeaders w cors else w)),
        some (cmd.Execute httpRW req.Args
          (newHTTPResponseWriter (if cors ≠ "" then setCORSHeaders w cors else w))).1⟩ := by
  unfold handleRequest
  simp [hpost, hdec, hcmd]

theorem envelopes_sendError (cors : String) (c : Conn) (sc : Int) (msg : String) :
    envelopes (sendError cors c sc msg).ops =
      envelopes c.ops ++ [(sc, [("Content-Type", ["application/json"])], GoValue.errorMap msg)] := by
  unfold sendError
  by_cases h : cors = "" <;>
    simp [h, setCORSHeaders, envelopes_append, envelopes]

theorem statusLines_sendError (cors : String) (c : Conn) (sc : Int) (msg : String) :
    statusLines (sendError cors c sc msg).ops = statusLines c.ops ++ [sc] := by
  unfold sendError
  by_cases h : cors = "" <;>
    simp [h, setCORSHeaders, statusLines_append, statusLines]

theorem events_sendError (cors : String) (c : Conn) (sc : Int) (msg : String) :
    events (sendError cors c sc msg).ops = events c.ops := by
  unfold sendError
  by_cases h : cors = "" <;>
    simp [h, setCORSHeaders, events_append, events]

/-- Claim C8: for every POST request whose envelope decodes and whose command resolves to
a handler: if the handler returns a failure and `started` is still false, the dispatcher
calls `sendError` with 500 and the failure text, which adds exactly one envelope
(status field 500, body `{error: text}`) and the status line 500; if the handler returns a
failure with `started` true, or returns no failure, the connection is left exactly as
the handler left it. -/
theorem C8_dispatcher_reports_idle_failures (env : Env) (cors : String)
    (commands : String → Option Command) (w : Conn) (r : HttpRequest) (req : Request)
    (cmd : Command)
    (hpost : r.Method = "POST")
    (hdec : env.decodeRequest r.Body = .ok req)
    (hcmd : commands req.Cmd = some cmd) :
    (∀ msg,
      (cmd.Execute httpRW req.Args
        (newHTTPResponseWriter (if cors ≠ "" then setCORSHeaders w cors else w))).1 = some msg →
      (cmd.Execute httpRW req.Args
        (newHTTPResponseWriter (if cors ≠ "" then setCORSHeaders w cors else w))).2.started = false →
      (handleRequest env cors commands w r).conn =
        sendError cors (cmd.Execute httpRW req.Args
          (newHTTPResponseWriter (if cors ≠ "" then setCORSHeaders w cors else w))).2.w 500 msg ∧
      envelopes (handleRequest env cors commands w r).conn.ops =
        envelopes (cmd.Execute httpRW req.Args
          (newHTTPResponseWriter (if cors ≠ "" then setCORSHeaders w cors else w))).2.w.ops ++
          [(500, [("Content-Type", ["application/json"])], GoValue.errorMap msg)] ∧
      statusLines (handleRequest env cors commands w r).conn.ops =
        statusLines (cmd.Execute httpRW req.Args
          (newHTTPResponseWriter (if cors ≠ "" then setCORSHeaders w cors else w))).2.w.ops ++
          [500]) ∧
    (∀ msg,
      (cmd.Execute httpRW req.Args
        (newHTTPResponseWriter (if cors ≠ "" then setCORSHeaders w cors else w))).1 = some msg →
      (cmd.Execute httpRW req.Args
        (newHTTPResponseWriter (if cors ≠ "" then setCORSHeaders w cors else w))).2.started = true →
      (handleRequest env cors commands w r).conn =
        (cmd.Execute httpRW req.Args
          (newHTTPResponseWriter (if cors ≠ "" then setCORSHeaders w cors else w))).2.w) ∧
    ((cmd.Execute httpRW req.Args
        (newHTTPResponseWriter (if cors ≠ "" then setCORSHeaders w cors else w))).1 = none →
      (handleRequest env cors commands w r).conn =
        (cmd.Execute httpRW req.Args
          (newHTTPResponseWriter (if cors ≠ "" then setCORSHeaders w cors else w))).2.w) := by
  rw [handleRequest_dispatch env cors commands w r req cmd hpost hdec hcmd]
  generalize cmd.Execute httpRW req.Args
    (newHTTPResponseWriter (if cors ≠ "" then setCORSHeaders w cors else w)) = res
  refine ⟨?_, ?_, ?_⟩
  · intro msg herr hst
    have hconn : afterExecute cors res = sendError cors res.2.w 500 msg := by
      simp only [afterExecute, herr, hst, Bool.false_eq_true, if_false]
    simp only [hconn]
    exact ⟨trivial, envelopes_sendError _ _ _ _, statusLines_sendError _ _ _ _⟩
  · intro msg herr hst
    simp only [afterExecute, herr, hst, if_true]
  · intro herr
    simp only [afterExecute, herr]

/-- Witness of C8: the fetch command invoked with an empty argument map fails before any
output, and the dispatcher answers with the 500 envelope. -/
theorem C8_dispatcher_reports_idle_failures_witness :
    (handleRequest noArgsEnv "" (fetchOnly noArgsEnv) flushingConn postRequest).conn =
      sendError "" flushingConn 500 "method must be a string" :=
  ((C8_dispatcher_reports_idle_failures noArgsEnv "" (fetchOnly noArgsEnv) flushingConn
    postRequest ⟨"fetch", []⟩ (fetchCommand noArgsEnv) rfl rfl rfl).1
      "method must be a string" rfl rfl).1

/-! ## C9: missing or mistyped required arguments -/

/-- Claim C9: for every argument map in which `method` is not a string (or absent) or
`url` is not a string (or absent), on any writer: `Execute` returns a failure, the call
log stays empty, the writer is as it was, and no call is made on `net/http`; the failure
is `method must be a string` whenever `method` is at fault (it is checked first) and
`url must be a string` otherwise; and a fresh HTTP writer still has `started` false. -/
theorem C9_missing_required_argument {W : Type} (env : Env) (rw : ResponseWriter W)
    (args : Args) (w : W) (conn : Conn)
    (hbad : (∀ m, args.lookup "method" ≠ some (Json.str m)) ∨
      (∀ u, args.lookup "url" ≠ some (Json.str u))) :
    ∃ msg : String,
      FetchCommand.Execute env (recording rw) args (w, []) = ⟨some msg, (w, []), []⟩ ∧
      ((∀ m, args.lookup "method" ≠ some (Json.str m)) → msg = "method must be a string") ∧
      ((∃ m, args.lookup "method" = some (Json.str m)) → msg = "url must be a string") ∧
      (FetchCommand.Execute env httpRW args (newHTTPResponseWriter conn)).err = some msg ∧
      (FetchCommand.Execute env httpRW args (newHTTPResponseWriter conn)).writer
        = newHTTPResponseWriter conn ∧
      (FetchCommand.Execute env httpRW args (newHTTPResponseWriter conn)).writer.started
        = false := by
  by_cases hm : ∃ m, args.lookup "method" = some (Json.str m)
  · obtain ⟨m, hm1⟩ := hm
    have hu : ∀ u, args.lookup "url" ≠ some (Json.str u) := by
      rcases hbad with h | h
      · exact absurd hm1 (h m)
      · exact h
    have hgen : ∀ {V : Type} (r : ResponseWriter V) (v : V),
        FetchCommand.Execute env r args v = ⟨some "url must be a string", v, []⟩ := by
      intro V r v
      unfold FetchCommand.Execute
      simp only [hm1]
    refine ⟨"url must be a string", hgen _ _, ?_, fun _ => rfl, ?_, ?_, ?_⟩
    · intro h
      exact absurd hm1 (h m)
    · rw [hgen]
    · rw [hgen]
    · rw [hgen]; rfl
  · have hm0 : ∀ m, args.lookup "method" ≠ some (Json.str m) := fun m h => hm ⟨m, h⟩
    have hgen : ∀ {V : Type} (r : ResponseWriter V) (v : V),
        FetchCommand.Execute env r args v = ⟨some "method must be a string", v, []⟩ := by
      intro V r v
      unfold FetchCommand.Execute
      cases hm1 : args.lookup "method" with
      | none => rfl
      | some j =>
        cases j with
        | str m => exact absurd hm1 (hm0 m)
        | _ => rfl
    refine ⟨"method must be a string", hgen _ _, fun _ => rfl, ?_, ?_, ?_, ?_⟩
    · intro h
      exact absurd h hm
    · rw [hgen]
    · rw [hgen]
    · rw [hgen]; rfl

/-- Witness of C9: the empty argument map. -/
theorem C9_missing_required_argument_witness :
    ∃ msg : String,
      FetchCommand.Execute noArgsEnv (recording httpRW) []
          (newHTTPResponseWriter flushingConn, []) =
        ⟨some msg, (newHTTPResponseWriter flushingConn, []), []⟩ ∧
      ((∀ m, ([] : Args).lookup "method" ≠ some (Json.str m)) → msg = "method must be a string") ∧
      ((∃ m, ([] : Args).lookup "method" = some (Json.str m)) → msg = "url must be a string") ∧
      (FetchCommand.Execute noArgsEnv httpRW [] (newHTTPResponseWriter flushingConn)).err
        = some msg ∧
      (FetchCommand.Execute noArgsEnv httpRW [] (newHTTPResponseWriter flushingConn)).writer
        = newHTTPResponseWriter flushingConn ∧
      (FetchCommand.Execute noArgsEnv httpRW [] (newHTTPResponseWriter flushingConn)).writer.started
        = false :=
  C9_missing_required_argument noArgsEnv httpRW [] (newHTTPResponseWriter flushingConn)
    flushingConn (Or.inl fun _ h => Option.noConfusion h)

/-! ## C10: unregistered commands -/

theorem loadCommands_subset (env : Env) (registry : Registry) (name : String)
    (hreg : registry name = none) (files : List String) :
    loadCommands env registry files name = none := by
  unfold loadCommands
  suffices h : ∀ init : String → Option Command, init name = none →
      (files.foldl
        (fun commands file =>
          if env.Ext file = ".go" then
            match GetCommand registry (env.Base (file.dropRight 3)) with
            | some cmd => fun n => if n = env.Base (file.dropRight 3) then some cmd else commands n
            | none => commands
          else commands) init) name = none from h _ rfl
  induction files with
  | nil => intro init h; exact h
  | cons f fs ih =>
    intro init h
    rw [List.foldl_cons]
    apply ih
    by_cases hext : env.Ext f = ".go"
    · simp only [hext, if_true]
      cases hget : GetCommand registry (env.Base (f.dropRight 3)) with
      | none => exact h
      | some cmd =>
        by_cases hn : name = env.Base (f.dropRight 3)
        · rw [← hn] at hget
          rw [GetCommand, hreg] at hget
          cases hget
        · simp only [hn, if_false]
          exact h
    · simp only [hext, if_false]
      exact h

theorem envelopes_cors (cors : String) (w : Conn) :
    envelopes (if cors ≠ "" then setCORSHeaders w cors else w).ops = envelopes w.ops := by
  by_cases h : cors = "" <;> simp [h, setCORSHeaders, envelopes_append, envelopes]

theorem statusLines_cors (cors : String) (w : Conn) :
    statusLines (if cors ≠ "" then setCORSHeaders w cors else w).ops = statusLines w.ops := by
  by_cases h : cors = "" <;> simp [h, setCORSHeaders, statusLines_append, statusLines]

theorem events_cors (cors : String) (w : Conn) :
    events (if cors ≠ "" then setCORSHeaders w cors else w).ops = events w.ops := by
  by_cases h : cors = "" <;> simp [h, setCORSHeaders, events_append, events]

/-- Claim C10: for every POST request whose body decodes to an envelope naming a command
that is not in the registry, whatever files `loadCommands` scanned: the dispatcher adds
exactly one envelope to the connection, with `statuscode` field 404 and the error body,
the only status line it writes is 404, it writes no event, it constructs no response
writer and it invokes no handler. -/
theorem C10_unregistered_command_gets_404 (env : Env) (cors : String) (registry : Registry)
    (files : List String) (w : Conn) (r : HttpRequest) (req : Request)
    (hpost : r.Method = "POST")
    (hdec : env.decodeRequest r.Body = .ok req)
    (hunreg : GetCommand registry req.Cmd = none) :
    envelopes (handleRequest env cors (loadCommands env registry files) w r).conn.ops =
      envelopes w.ops ++
        [(404, [("Content-Type", ["application/json"])], GoValue.errorMap "Command not found")] ∧
    statusLines (handleRequest env cors (loadCommands env registry files) w r).conn.ops =
      statusLines w.ops ++ [404] ∧
    events (handleRequest env cors (loadCommands env registry files) w r).conn.ops =
      events w.ops ∧
    (handleRequest env cors (loadCommands env registry files) w r).writer = none ∧
    (handleRequest env cors (loadCommands env registry files) w r).handlerErr = none := by
  have hcmd : loadCommands env registry files req.Cmd = none :=
    loadCommands_subset env registry req.Cmd hunreg files
  have hres : handleRequest env cors (loadCommands env registry files) w r =
      ⟨sendError cors (if cors ≠ "" then setCORSHeaders w cors else w) 404 "Command not found",
        none, none⟩ := by
    unfold handleRequest
    simp [hpost, hdec, hcmd]
  rw [hres]
  refine ⟨?_, ?_, ?_, rfl, rfl⟩
  · rw [envelopes_sendError, envelopes_cors]
  · rw [statusLines_sendError, statusLines_cors]
  · rw [events_sendError, events_cors]

/-- Witness of C10: the command `nope` against the registry that holds only `fetch`. -/
theorem C10_unregistered_command_gets_404_witness :
    envelopes (handleRequest unknownCmdEnv "" (loadCommands unknownCmdEnv
        (initRegistry unknownCmdEnv) ["fetch.go", "registry.go"]) flushingConn postRequest).conn.ops =
      envelopes flushingConn.ops ++
        [(404, [("Content-Type", ["application/json"])], GoValue.errorMap "Command not found")] ∧
    statusLines (handleRequest unknownCmdEnv "" (loadCommands unknownCmdEnv
        (initRegistry unknownCmdEnv) ["fetch.go", "registry.go"]) flushingConn postRequest).conn.ops =
      statusLines flushingConn.ops ++ [404] ∧
    events (handleRequest unknownCmdEnv "" (loadCommands unknownCmdEnv
        (initRegistry unknownCmdEnv) ["fetch.go", "registry.go"]) flushingConn postRequest).conn.ops =
      events flushingConn.ops ∧
    (handleRequest unknownCmdEnv "" (loadCommands unknownCmdEnv
        (initRegistry unknownCmdEnv) ["fetch.go", "registry.go"]) flushingConn postRequest).writer
      = none ∧
    (handleRequest unknownCmdEnv "" (loadCommands unknownCmdEnv
        (initRegistry unknownCmdEnv) ["fetch.go", "registry.go"]) flushingConn postRequest).handlerErr
      = none :=
  C10_unregistered_command_gets_404 unknownCmdEnv "" (initRegistry unknownCmdEnv)
    ["fetch.go", "registry.go"] flushingConn postRequest ⟨"nope", []⟩ rfl rfl rfl

/-! ## C6: calls after a successful WriteJSON -/

theorem statusLines_headerAdds (h : Header) : statusLines (headerAdds h) = [] := by
  unfold headerAdds
  induction h with
  | nil => rfl
  | cons kv rest ih =>
    rw [List.flatMap_cons, statusLines_append, ih, List.append_nil]
    induction kv.2 with
    | nil => rfl
    | cons v vs ihv => simpa [statusLines] using ihv

theorem Stream_of_started (t : String) (d : GoValue) (rw : httpResponseWriter)
    (hs : rw.started = true) :
    rw.Stream t d =
      if rw.flusher then
        match marshalErr d with
        | some e => (some e, rw)
        | none => (none, { rw with w := rw.w.push [ConnOp.event t d, ConnOp.flush] })
      else (some "streaming not supported", rw) := by
  simp only [httpResponseWriter.Stream, openStream_of_started rw hs]

theorem End_of_started (rw : httpResponseWriter) (hs : rw.started = true) :
    rw.End =
      if rw.flusher then
        (none, { rw with
          w := rw.w.push [ConnOp.event "end" (GoValue.json (Json.obj [])), ConnOp.flush] })
      else (none, rw) := by
  simp only [httpResponseWriter.End, hs, if_true]

/-- One call on a started writer adds nothing but event frames. -/
theorem run_started_frames (c : Call) (rw : httpResponseWriter) (hs : rw.started = true) :
    (c.run rw).started = true ∧
      ∃ new, (c.run rw).w.ops = rw.w.ops ++ new ∧ ∀ o ∈ new, o.isFrame = true := by
  cases c with
  | WriteJSON sc h b =>
    simp only [Call.run, WriteJSON_of_started sc h b rw hs]
    exact ⟨hs, [], by simp, by simp⟩
  | Stream t d =>
    simp only [Call.run, Stream_of_started t d rw hs]
    by_cases hf : rw.flusher = true
    · simp only [hf, if_true]
      cases marshalErr d with
      | some e => exact ⟨hs, [], by simp, by simp⟩
      | none =>
        refine ⟨hs, [ConnOp.event t d, ConnOp.flush], by simp, ?_⟩
        intro o ho
        simp only [List.mem_cons, List.mem_singleton, List.not_mem_nil, or_false] at ho
        rcases ho with h | h <;> rw [h] <;> rfl
    · simp only [hf]
      exact ⟨hs, [], by simp, by simp⟩
  | End =>
    simp only [Call.run, End_of_started rw hs]
    by_cases hf : rw.flusher = true
    · simp only [hf, if_true]
      refine ⟨hs, [ConnOp.event "end" (GoValue.json (Json.obj [])), ConnOp.flush], by simp, ?_⟩
      intro o ho
      simp only [List.mem_cons, List.mem_singleton, List.not_mem_nil, or_false] at ho
      rcases ho with h | h <;> rw [h] <;> rfl
    · simp only [hf]
      exact ⟨hs, [], by simp, by simp⟩

/-- Any sequence of calls on a started writer adds nothing but event frames. -/
theorem runCalls_started_frames (cs : List Call) :
    ∀ rw : httpResponseWriter, rw.started = true →
      ∃ new, (runCalls cs rw).w.ops = rw.w.ops ++ new ∧ ∀ o ∈ new, o.isFrame = true := by
  induction cs with
  | nil => intro rw _; exact ⟨[], by simp [runCalls], by simp⟩
  | cons c cs ih =>
    intro rw hs
    have hstep : runCalls (c :: cs) rw = runCalls cs (c.run rw) := rfl
    obtain ⟨hs1, n1, hn1, hf1⟩ := run_started_frames c rw hs
    obtain ⟨n2, hn2, hf2⟩ := ih (c.run rw) hs1
    refine ⟨n1 ++ n2, ?_, ?_⟩
    · rw [hstep, hn2, hn1, List.append_assoc]
    · intro o ho
      rcases List.mem_append.1 ho with h | h
      · exact hf1 o h
      · exact hf2 o h

theorem WriteJSON_statusLines_idle (sc : Int) (h : Header) (b : GoValue)
    (rw : httpResponseWriter) (hs : rw.started = false) :
    statusLines (rw.WriteJSON sc h b).2.w.ops = statusLines rw.w.ops ++ [sc] := by
  unfold httpResponseWriter.WriteJSON
  simp only [hs]
  cases marshalErr b <;>
    simp [statusLines_append, statusLines_headerAdds, statusLines]

theorem Stream_statusLines_idle (t : String) (d : GoValue) (rw : httpResponseWriter)
    (hs : rw.started = false) :
    statusLines (rw.Stream t d).2.w.ops = statusLines rw.w.ops ++ [200] := by
  unfold httpResponseWriter.Stream httpResponseWriter.openStream
  simp only [hs]
  by_cases hf : rw.flusher = true
  · cases marshalErr d <;> simp [hf, statusLines_append, statusLines]
  · simp [hf, statusLines_append, statusLines]

theorem End_of_idle (rw : httpResponseWriter) (hs : rw.started = false) :
    rw.End = (some "response not started", rw) := by
  simp [httpResponseWriter.End, hs]

/-- Over any sequence of calls at most one status line is written, and none once
`started` is set. -/
theorem runCalls_statusLines (cs : List Call) :
    ∀ rw : httpResponseWriter,
      ∃ ss, statusLines (runCalls cs rw).w.ops = statusLines rw.w.ops ++ ss ∧ ss.length ≤ 1 := by
  induction cs with
  | nil => intro rw; exact ⟨[], by simp [runCalls], by simp⟩
  | cons c cs ih =>
    intro rw
    have hstep : runCalls (c :: cs) rw = runCalls cs (c.run rw) := rfl
    by_cases hs : rw.started = true
    · obtain ⟨new, hnew, hfr⟩ := runCalls_started_frames (c :: cs) rw hs
      refine ⟨[], ?_, by simp⟩
      rw [hnew, statusLines_append, statusLines_of_frames new hfr]
    · have hs0 : rw.started = false := by simpa using hs
      cases c with
      | WriteJSON sc h b =>
        obtain ⟨new, hnew, hfr⟩ := runCalls_started_frames cs (Call.run (Call.WriteJSON sc h b) rw)
          (WriteJSON_sets_started sc h b rw)
        refine ⟨[sc], ?_, by simp⟩
        rw [hstep, hnew, statusLines_append, statusLines_of_frames new hfr, List.append_nil]
        exact WriteJSON_statusLines_idle sc h b rw hs0
      | Stream t d =>
        obtain ⟨new, hnew, hfr⟩ := runCalls_started_frames cs (Call.run (Call.Stream t d) rw)
          (Stream_sets_started t d rw)
        refine ⟨[200], ?_, by simp⟩
        rw [hstep, hnew, statusLines_append, statusLines_of_frames new hfr, List.append_nil]
        exact Stream_statusLines_idle t d rw hs0
      | End =>
        have hrun : Call.run Call.End rw = rw := by
          simp [Call.run, End_of_idle rw hs0]
        rw [hstep, hrun]
        exact ih rw

/-- Counterexample to C6 as stated: after `WriteJSON` has succeeded on a fresh writer over
a flushing connection, a `Stream` call returns no error and writes a `data` frame, and an
`End` call returns no error and writes the `end` frame. -/
theorem C6_stream_and_end_succeed_after_WriteJSON :
    ((newHTTPResponseWriter flushingConn).WriteJSON 200 [] (GoValue.text [104, 105])).1 = none ∧
    (sentWriter.Stream "data" (GoValue.text [121, 111])).1 = none ∧
    events (sentWriter.Stream "data" (GoValue.text [121, 111])).2.w.ops
      = [("data", GoValue.text [121, 111])] ∧
    sentWriter.End.1 = none ∧
    events sentWriter.End.2.w.ops = [("end", GoValue.json (Json.obj []))] :=
  ⟨rfl, rfl, rfl, rfl, rfl⟩

/-- Claim C6, amended: on a writer on which `WriteJSON` has been called, at any later
point: everything written to the connection since is event frames (no status line, no
header, no envelope); a further `WriteJSON` fails with `response already started` and
changes nothing; `Stream` opens nothing, fails with `streaming not supported` and changes
nothing when the connection cannot flush, and otherwise appends one frame for a payload
that marshals; `End` returns no error and appends the `end` frame exactly when the
connection can flush.  On every instance `End` returns no error exactly when a
`WriteJSON` or `Stream` call came before it, and at most one status line and at most
one envelope are ever written. -/
theorem C6_after_WriteJSON_only_frames (rw0 : httpResponseWriter) (sc0 : Int) (h0 : Header)
    (b0 : GoValue) (cs : List Call) (rw : httpResponseWriter)
    (hrw : rw = runCalls cs (rw0.WriteJSON sc0 h0 b0).2) :
    (∃ new, rw.w.ops = (rw0.WriteJSON sc0 h0 b0).2.w.ops ++ new ∧ ∀ o ∈ new, o.isFrame = true) ∧
    (∀ sc h b, rw.WriteJSON sc h b = (some "response already started", rw)) ∧
    (∀ t d, rw.Stream t d =
      if rw.flusher then
        match marshalErr d with
        | some e => (some e, rw)
        | none => (none, { rw with w := rw.w.push [ConnOp.event t d, ConnOp.flush] })
      else (some "streaming not supported", rw)) ∧
    (rw.End =
      if rw.flusher then
        (none, { rw with
          w := rw.w.push [ConnOp.event "end" (GoValue.json (Json.obj [])), ConnOp.flush] })
      else (none, rw)) ∧
    (∀ (conn : Conn) (cs1 : List Call),
      (runCalls cs1 (newHTTPResponseWriter conn)).End.1 = none ↔
        cs1.any Call.startsOutput = true) ∧
    (∀ (conn : Conn) (cs1 : List Call),
      ∃ ss, statusLines (runCalls cs1 (newHTTPResponseWriter conn)).w.ops
          = statusLines conn.ops ++ ss ∧ ss.length ≤ 1) ∧
    (∀ (conn : Conn) (cs1 : List Call),
      ∃ es, envelopes (runCalls cs1 (newHTTPResponseWriter conn)).w.ops
          = envelopes conn.ops ++ es ∧ es.length ≤ 1) := by
  have hs0 : (rw0.WriteJSON sc0 h0 b0).2.started = true := WriteJSON_sets_started sc0 h0 b0 rw0
  have hs : rw.started = true := by
    rw [hrw, runCalls_started, hs0]
    rfl
  refine ⟨?_, ?_, ?_, End_of_started rw hs, ?_, ?_, ?_⟩
  · rw [hrw]
    exact runCalls_started_frames cs _ hs0
  · intro sc h b
    exact WriteJSON_of_started sc h b rw hs
  · intro t d
    exact Stream_of_started t d rw hs
  · intro conn cs1
    have hst := runCalls_started cs1 (newHTTPResponseWriter conn)
    have hnew : (newHTTPResponseWriter conn).started = false := rfl
    rw [hnew, Bool.false_or] at hst
    rw [← hst]
    by_cases h : (runCalls cs1 (newHTTPResponseWriter conn)).started = true
    · rw [End_of_started _ h]
      by_cases hf : (runCalls cs1 (newHTTPResponseWriter conn)).flusher = true <;> simp [hf, h]
    · have h0 : (runCalls cs1 (newHTTPResponseWriter conn)).started = false := by simpa using h
      rw [End_of_idle _ h0]
      simp [h0]
  · intro conn cs1
    exact runCalls_statusLines cs1 (newHTTPResponseWriter conn)
  · intro conn cs1
    obtain ⟨es, hes, hlen, _⟩ := runCalls_envelopes cs1 (newHTTPResponseWriter conn)
    exact ⟨es, hes, hlen⟩

/-- Witness of C6 (amended): the writer right after a successful `WriteJSON`. -/
theorem C6_after_WriteJSON_only_frames_witness :
    sentWriter.WriteJSON 500 [] (GoValue.errorMap "late") =
      (some "response already started", sentWriter) :=
  (C6_after_WriteJSON_only_frames (newHTTPResponseWriter flushingConn) 200 []
    (GoValue.text [104, 105]) [] sentWriter rfl).2.1 500 [] (GoValue.errorMap "late")

/-! ## C5: streaming on a connection that cannot flush -/

theorem handleStreamingResponse_noflush (env : Env) (resp : Response) (rw : httpResponseWriter)
    (hf : rw.flusher = false) :
    FetchCommand.handleStreamingResponse env httpRW resp rw =
      (some "streaming not supported", rw.openStream) := by
  have hstart : httpRW.Stream "start" (GoValue.startInfo resp.StatusCode resp.Header) rw =
      (some "streaming not supported", rw.openStream) := by
    simp [httpRW, httpResponseWriter.Stream, hf]
  unfold FetchCommand.handleStreamingResponse
  rw [hstart]

theorem cors_canFlush (cors : String) (w : Conn) :
    (if cors ≠ "" then setCORSHeaders w cors else w).canFlush = w.canFlush := by
  by_cases h : cors = "" <;> simp [h, setCORSHeaders]

/-- Claim C5 on the code: for every POST request dispatched to the fetch command with
`stream` true whose outbound call succeeds, on a connection that cannot flush, the
handler fails with `streaming not supported`, but by then `Stream` has set `started` and
sent the stream-opening headers with status 200, so the dispatcher reports nothing: the
connection holds the status line 200 and no envelope. -/
theorem C5_unsupported_stream_failure_is_dropped (env : Env) (cors : String)
    (commands : String → Option Command) (w : Conn) (r : HttpRequest) (req : Request)
    (m u : String) (resp : Response)
    (hpost : r.Method = "POST")
    (hdec : env.decodeRequest r.Body = .ok req)
    (hcmd : commands req.Cmd = some (fetchCommand env))
    (hm : req.Args.lookup "method" = some (Json.str m))
    (hu : req.Args.lookup "url" = some (Json.str u))
    (hstream : req.Args.lookup "stream" = some (Json.bool true))
    (hreq : env.newRequest m u (req.Args.lookup "body") = none)
    (hsend : env.roundTrip ⟨m, u, req.Args.lookup "body", stringHeaders req.Args⟩ = .ok resp)
    (hnf : w.canFlush = false) :
    (handleRequest env cors commands w r).handlerErr = some (some "streaming not supported") ∧
    (handleRequest env cors commands w r).conn.ops =
      (if cors ≠ "" then setCORSHeaders w cors else w).ops ++ openOps ∧
    envelopes (handleRequest env cors commands w r).conn.ops = envelopes w.ops ∧
    statusLines (handleRequest env cors commands w r).conn.ops = statusLines w.ops ++ [200] ∧
    events (handleRequest env cors commands w r).conn.ops = events w.ops := by
  have hsf : streamFlag req.Args = true := by simp [streamFlag, hstream]
  have hfl : (newHTTPResponseWriter (if cors ≠ "" then setCORSHeaders w cors else w)).flusher
      = false := by
    show (if cors ≠ "" then setCORSHeaders w cors else w).canFlush = false
    rw [cors_canFlush, hnf]
  have hexec : (fetchCommand env).Execute httpRW req.Args
      (newHTTPResponseWriter (if cors ≠ "" then setCORSHeaders w cors else w)) =
      (some "streaming not supported",
        (newHTTPResponseWriter (if cors ≠ "" then setCORSHeaders w cors else w)).openStream) := by
    simp only [fetchCommand]
    rw [Execute_outbound_ok env httpRW req.Args _ m u resp hm hu hreq hsend]
    simp only [hsf, if_true, handleStreamingResponse_noflush env resp _ hfl]
  have hconn : (handleRequest env cors commands w r).conn.ops =
      (if cors ≠ "" then setCORSHeaders w cors else w).ops ++ openOps := by
    rw [handleRequest_dispatch env cors commands w r req (fetchCommand env) hpost hdec hcmd,
      hexec]
    simp only [afterExecute, openStream_started, if_true]
    simp [httpResponseWriter.openStream, newHTTPResponseWriter, openOps]
  refine ⟨?_, hconn, ?_, ?_, ?_⟩
  · rw [handleRequest_dispatch env cors commands w r req (fetchCommand env) hpost hdec hcmd,
      hexec]
  · rw [hconn, envelopes_append, envelopes_cors]
    simp [openOps, envelopes]
  · rw [hconn, statusLines_append, statusLines_cors]
    simp [openOps, statusLines]
  · rw [hconn, events_append, events_cors]
    simp [openOps, events]

/-- Witness of C5 on the code: a streaming fetch on a fresh connection that cannot flush
ends with the stream-opening headers, status 200, and nothing else. -/
theorem C5_unsupported_stream_failure_is_dropped_witness :
    (handleRequest (sampleEnv helloResp) "" (fetchOnly (sampleEnv helloResp)) plainConn
        postRequest).handlerErr = some (some "streaming not supported") ∧
    (handleRequest (sampleEnv helloResp) "" (fetchOnly (sampleEnv helloResp)) plainConn
        postRequest).conn.ops = openOps ∧
    envelopes (handleRequest (sampleEnv helloResp) "" (fetchOnly (sampleEnv helloResp)) plainConn
        postRequest).conn.ops = [] ∧
    statusLines (handleRequest (sampleEnv helloResp) "" (fetchOnly (sampleEnv helloResp))
        plainConn postRequest).conn.ops = [200] ∧
    events (handleRequest (sampleEnv helloResp) "" (fetchOnly (sampleEnv helloResp)) plainConn
        postRequest).conn.ops = [] :=
  C5_unsupported_stream_failure_is_dropped (sampleEnv helloResp) "" (fetchOnly (sampleEnv helloResp))
    plainConn postRequest ⟨"fetch", streamArgs⟩ "GET" "http://up" helloResp
    rfl rfl rfl rfl rfl rfl rfl rfl rfl

end CommandServer
